import Mathlib

/-!
# MoodMelt dashboard — verification of the normalization/aggregation core

Shallow embedding of `src/MoodMeltDashboardApp.py` (the data-normalization
and aggregation functions; UI/chart/PDF glue is out of scope, as in the
spec).  Python strings are modelled as `List Char` (`PyStr`); a dataframe
cell is `Cell` (`na` for NaN/None, a string, or a number); machine floats
do not occur in the modelled comparisons, which are carried out over `ℚ`
where the source multiplies by 1.1/0.9.

Library calls are modelled by their documented behaviour on the scalar
inputs the source feeds them:
* `pd.notna` — false exactly on `na`;
* `pd.to_datetime(v, errors='coerce')` — total, `none` (NaT) on parse
  failure; we model the ISO `YYYY-MM-DD` string subset, other inputs
  coerce to `none` (no claim depends on the other accepted formats);
* `pd.to_numeric(v, errors='coerce')` — on a *scalar* input it returns a
  scalar (a numpy number, or float nan on failure), never a Series;
* `.fillna` — an attribute of pandas Series/DataFrames only; calling it
  on a numpy/python scalar raises `AttributeError`.  This is modelled
  faithfully because line 164 of the source does exactly that.
-/

abbrev PyStr := List Char

/-- A dataframe cell as seen by the row loop of `process_csv`:
`na` is NaN/None (also used for a column synthesized by the
missing-column fill at lines 150–153), otherwise a string or a number. -/
inductive Cell where
  | na : Cell
  | str : PyStr → Cell
  | num : Int → Cell
  deriving DecidableEq, Repr

/-- `pd.notna` on a scalar cell. -/
def Cell.notna : Cell → Bool
  | .na => false
  | _ => true

/-- The character set of Python's `str.isspace()` (CPython's
`Py_UNICODE_ISSPACE`), which is exactly the set `str.strip()` removes:
TAB..CR (9-13), FS..US and space (28-32), NEL (133), NBSP (160), Ogham
space mark (5760), the typographic spaces 8192-8202, line separator
8232, paragraph separator 8233, narrow NBSP 8239, medium mathematical
space 8287, and ideographic space 12288. -/
def pyIsSpace (c : Char) : Bool :=
  decide ((9 ≤ c.toNat ∧ c.toNat ≤ 13) ∨ (28 ≤ c.toNat ∧ c.toNat ≤ 32) ∨
    c.toNat = 133 ∨ c.toNat = 160 ∨ c.toNat = 5760 ∨
    (8192 ≤ c.toNat ∧ c.toNat ≤ 8202) ∨ c.toNat = 8232 ∨ c.toNat = 8233 ∨
    c.toNat = 8239 ∨ c.toNat = 8287 ∨ c.toNat = 12288)

/-- Python `str.strip()` (leading/trailing Python-whitespace removed). -/
def pyStrip (s : PyStr) : PyStr :=
  ((s.dropWhile pyIsSpace).reverse.dropWhile pyIsSpace).reverse

/-- Python `str(value)` for the non-null cells fed to the text branch. -/
def Cell.pyRepr : Cell → PyStr
  | .na => []
  | .str s => s
  | .num n => (toString n).toList

/-- `normalize_column_name` (source line 132-133):
`name.strip().lower().replace(' ', '').replace('-', '').replace('_', '')`.
`replace(c, '')` deletes every occurrence of the character `c`. -/
def normalize_column_name (name : PyStr) : PyStr :=
  ((((pyStrip name).map Char.toLower).filter (· ≠ ' ')).filter (· ≠ '-')).filter (· ≠ '_')

/-- Digits of a decimal number, as a value when all chars are digits. -/
def parseDigits : PyStr → Option Nat
  | [] => none
  | l => l.foldl (fun acc c => do
      let a ← acc
      if c.isDigit then some (a * 10 + (c.toNat - '0'.toNat)) else none) (some 0)

/-- Model of the ISO `YYYY-MM-DD` subset accepted by `pd.to_datetime`;
the result is encoded as `y*10000 + m*100 + d`, which orders valid
dates chronologically. -/
def parseIsoDate (s : PyStr) : Option Nat :=
  match s with
  | [y1, y2, y3, y4, '-', m1, m2, '-', d1, d2] => do
    let y ← parseDigits [y1, y2, y3, y4]
    let m ← parseDigits [m1, m2]
    let d ← parseDigits [d1, d2]
    if 1 ≤ m ∧ m ≤ 12 ∧ 1 ≤ d ∧ d ≤ 31 then some (y * 10000 + m * 100 + d) else none
  | _ => none

/-- `pd.to_datetime(value, errors='coerce')` on a scalar: total, `none`
is NaT.  Non-string scalars (numeric epochs) are coerced to `none`;
no claim depends on them. -/
def to_datetime_coerce : Cell → Option Nat
  | .str s => parseIsoDate (pyStrip s)
  | _ => none

/-- The scalar returned by `pd.to_numeric(value, errors='coerce')` on a
scalar input: a numpy number, or nan on failure. -/
inductive NumScalar where
  | nan : NumScalar
  | int : Int → NumScalar
  deriving DecidableEq, Repr

/-- Integer-string parse (optional sign, surrounding whitespace), the
subset of `pd.to_numeric` string handling relevant here. -/
def parseIntStr (s : PyStr) : Option Int :=
  match pyStrip s with
  | '-' :: rest => (parseDigits rest).map (fun n => -(n : Int))
  | '+' :: rest => (parseDigits rest).map (fun n => (n : Int))
  | rest => (parseDigits rest).map (fun n => (n : Int))

/-- `pd.to_numeric(value, errors='coerce')` on a scalar. -/
def to_numeric_coerce : Cell → NumScalar
  | .na => .nan
  | .num n => .int n
  | .str s =>
    match parseIntStr s with
    | some n => .int n
    | none => .nan

/-- The one runtime error the embedded core can raise. -/
inductive PyError where
  | attributeError : PyError
  deriving DecidableEq, Repr

/-- `scalar.fillna(0)`: numpy/python scalars carry no `fillna`
attribute, so this raises `AttributeError` unconditionally — `fillna`
exists only on pandas Series/DataFrames, and `pd.to_numeric` on a
scalar never returns one of those. -/
def scalar_fillna (_x : NumScalar) (_v : Int) : Except PyError Int :=
  .error .attributeError

/-- Source line 164:
`pd.to_numeric(value, errors='coerce').fillna(0).astype(int) if pd.notna(value) else 0`. -/
def coerce_engagements (value : Cell) : Except PyError Int :=
  if value.notna then do
    let s := to_numeric_coerce value
    let f ← scalar_fillna s 0
    pure f
  else
    pure 0

/-- The `"Unknown"` default of the text branch. -/
def unknownL : PyStr := "Unknown".toList

/-- The distinct media-type sentinel. -/
def unknownMediaL : PyStr := "Unknown Media Type".toList

/-- Source line 166: `str(value).strip() if pd.notna(value) else 'Unknown'`. -/
def clean_text (value : Cell) : PyStr :=
  if value.notna then pyStrip value.pyRepr else unknownL

/-- One raw row, restricted to the six expected columns after header
normalization; an absent column appears as `na` (lines 150–153). -/
structure RawRow where
  date : Cell
  platform : Cell
  sentiment : Cell
  location : Cell
  engagements : Cell
  mediatype : Cell
  deriving DecidableEq, Repr

/-- A cleaned row; `date = none` is the missing-date sentinel (NaT/None). -/
structure CleanRecord where
  date : Option Nat
  platform : PyStr
  sentiment : PyStr
  location : PyStr
  engagements : Int
  mediatype : PyStr
  deriving DecidableEq, Repr

/-- The per-row body of `process_csv` (source lines 156–172), including
the `mediatype` rewrite at lines 168–170.  The engagements branch can
raise (line 164), so the result is an `Except`. -/
def process_row (r : RawRow) : Except PyError CleanRecord := do
  let date := if r.date.notna then to_datetime_coerce r.date else none
  let platform := clean_text r.platform
  let sentiment := clean_text r.sentiment
  let location := clean_text r.location
  let eng ← coerce_engagements r.engagements
  let mediatype0 := clean_text r.mediatype
  let mediatype := if mediatype0 = unknownL then unknownMediaL else mediatype0
  pure { date := date, platform := platform, sentiment := sentiment,
         location := location, engagements := eng, mediatype := mediatype }

/-- `process_csv` over the whole table: the row loop appends each
cleaned row; an exception in any row propagates (source lines 137–174). -/
def process_csv (rows : List RawRow) : Except PyError (List CleanRecord) :=
  rows.mapM process_row


/-! ## Aggregation -/

/-- Insert `a` after every earlier element `b` with `le a b = false`
(stable insertion step). -/
def insertBy (le : α → α → Bool) (a : α) : List α → List α
  | [] => [a]
  | b :: bs => if le a b then a :: b :: bs else b :: insertBy le a bs

/-- Stable insertion sort, the model for the pandas sorts used here
(ties keep their incoming order, the spec's stable-sort contract). -/
def sortBy (le : α → α → Bool) : List α → List α
  | [] => []
  | a :: l => insertBy le a (sortBy le l)

/-- Strictly-descending-by-magnitude order; under stable sorting, ties
stay in first-seen order. -/
def descBy (p q : α × Int) : Bool := p.2 > q.2

/-- `Series.value_counts()`: occurrence count per distinct value,
sorted by descending count.  The order of ties among equal counts is
implementation detail in pandas and no claim depends on it; the
distinct keys are taken from `dedup`. -/
def value_counts (l : List PyStr) : List (PyStr × Int) :=
  sortBy descBy (l.dedup.map (fun k => (k, (l.count k : Int))))

/-- `df.groupby('platform')['engagements'].sum()` followed by
`.sort_values(ascending=False)` (source lines 400–401): engagement sum
per distinct platform, sorted by descending sum. -/
def platform_engagements (rows : List CleanRecord) : List (PyStr × Int) :=
  sortBy descBy
    ((rows.map (·.platform)).dedup.map
      (fun k => (k, ((rows.filter (·.platform = k)).map (·.engagements)).sum)))

/-- Ascending order on grouped dates. -/
def dateLe (p q : Nat) : Bool := p ≤ q

/-- The engagements carried by rows with a parsed (non-sentinel) date:
`df.dropna(subset=['date'])` restricted to the two columns used. -/
def datedEngagements (rows : List CleanRecord) : List (Nat × Int) :=
  rows.filterMap (fun r => r.date.map (fun d => (d, r.engagements)))

/-- `df_clean.groupby(df_clean['date'].dt.date)['engagements'].sum()`
(source lines 241–244 / 374–377): rows with the missing-date sentinel
dropped, remaining rows grouped by date with engagements summed, one
entry per distinct date, ascending by date. -/
def engagements_by_date (rows : List CleanRecord) : List (Nat × Int) :=
  let dated := datedEngagements rows
  (sortBy dateLe (dated.map Prod.fst).dedup).map
    (fun d => (d, ((dated.filter (·.1 = d)).map (·.2)).sum))

/-- `Series.idxmax`-style selection: the first entry whose value is an
extreme of the whole series under `cmp` (`cmp q p` = "`p` at least as
extreme as `q`"). -/
def firstExtreme (cmp : Int → Int → Bool) (s : List (Nat × Int)) : Option (Nat × Int) :=
  s.find? (fun p => s.all (fun q => cmp q.2 p.2))

/-- The numeric content of `get_engagement_insights` (source lines
240–260): max/min daily sum with their dates (`idxmax`/`idxmin` take
the first index achieving the extreme), total, and mean over the
number of distinct dates. -/
structure EngagementStats where
  maxDate : Nat
  maxVal : Int
  minDate : Nat
  minVal : Int
  total : Int
  average : ℚ
  deriving DecidableEq, Repr

/-- `get_engagement_insights`: `none` models the early
`'No engagement data to analyze.'` return on an empty series. -/
def get_engagement_insights (rows : List CleanRecord) : Option EngagementStats :=
  let s := engagements_by_date rows
  match firstExtreme (· ≤ ·) s, firstExtreme (· ≥ ·) s with
  | some pMax, some pMin =>
    some { maxDate := pMax.1, maxVal := pMax.2, minDate := pMin.1, minVal := pMin.2,
           total := (s.map (·.2)).sum,
           average := ((s.map (·.2)).sum : ℚ) / (s.length : ℚ) }
  | _, _ => none

/-! ## Recommendation rules (`get_overall_recommendations`) -/

/-- Outcome of the engagement-trend rule (source lines 373–396). -/
inductive TrendRec where
  | upward | declining | stable | noClearTrend | limitedData | noData
  deriving DecidableEq, Repr

/-- The engagement-trend rule on the daily series (source lines
379–396): with more than one date it compares first and last daily
sums — but only when the total is positive; a non-positive total takes
the `'no clear trend yet'` branch.  Thresholds `*1.1` / `*0.9` are
modelled exactly over `ℚ`. -/
def engagement_trend (s : List (Nat × Int)) : TrendRec :=
  match s with
  | [] => .noData
  | [_] => .limitedData
  | p :: q :: rest =>
    let first : ℚ := p.2
    let lastv : ℚ := ((q :: rest).getLast (List.cons_ne_nil q rest)).2
    let total : Int := ((p :: q :: rest).map (·.2)).sum
    if total > 0 then
      if lastv > first * (11 / 10 : ℚ) then .upward
      else if lastv < first * (9 / 10 : ℚ) then .declining
      else .stable
    else .noClearTrend

/-- Outcome of a top-category rule. -/
inductive CatRec where
  | focus : PyStr → CatRec
  | dataMissing | noData
  deriving DecidableEq, Repr

/-- One top-category rule (source lines 403–408, 415–420, 427–432):
`if nonempty and top != sentinel and topval > 0` → focus;
`elif nonempty and top == sentinel` → data-missing; `else` → no-data. -/
def top_category_rec (sentinel : PyStr) (sorted : List (PyStr × Int)) : CatRec :=
  match sorted with
  | [] => .noData
  | (k, v) :: _ =>
    if k ≠ sentinel ∧ v > 0 then .focus k
    else if k = sentinel then .dataMissing
    else .noData

/-- Rule 3, top platform (source lines 399–408). -/
def platform_rec (rows : List CleanRecord) : CatRec :=
  top_category_rec unknownL (platform_engagements rows)

/-- Rule 4, top media type (source lines 411–420). -/
def media_type_rec (rows : List CleanRecord) : CatRec :=
  top_category_rec unknownMediaL (value_counts (rows.map (·.mediatype)))

/-- Rule 5, top location (source lines 423–432). -/
def location_rec (rows : List CleanRecord) : CatRec :=
  top_category_rec unknownL (value_counts (rows.map (·.location)))

/-! ## Location chart and insights -/

/-- `create_location_bar_chart` data (source lines 320–323):
`value_counts` sorted descending then `.head(5)`. -/
def location_chart_data (rows : List CleanRecord) : List (PyStr × Int) :=
  (sortBy descBy (value_counts (rows.map (·.location)))).take 5

/-- The category named by the second location insight (source lines
334–342): `sorted_locations.index[-1]` over the **untruncated**
descending sort — the last, least-common entry of the whole aggregate. -/
def location_insight_bottom (rows : List CleanRecord) : Option (PyStr × Int) :=
  (sortBy descBy (value_counts (rows.map (·.location)))).getLast?

/-! ## Auxiliary definitions used by the verification -/

/-- Separator characters deleted by `normalize_column_name`. -/
def notSep (c : Char) : Bool := ¬(c = ' ' ∨ c = '-' ∨ c = '_')

/-- The residue of a header after forgetting letter case and the
space/hyphen/underscore separators: two headers "differ only in letter
case and separators" exactly when their keys agree. -/
def caseSepKey (s : PyStr) : PyStr := (s.map Char.toLower).filter notSep

/-- Header strings whose Python-whitespace characters are all the plain
space character (no TAB/LF/VT/FF/CR, FS..US, NEL, NBSP or Unicode
space characters). -/
abbrev onlySpaceWS (s : PyStr) : Prop := ∀ c ∈ s, pyIsSpace c = true → c = ' '

/-- The per-date engagement sum, stated directly over the table (the
reference reading of "group by date and sum engagements"). -/
def dateSum (rows : List CleanRecord) (d : Nat) : Int :=
  ((rows.filter (fun r => r.date = some d)).map (·.engagements)).sum

/-- A row whose six cells are all NaN/None. -/
def rowAllNa : RawRow :=
  { date := .na, platform := .na, sentiment := .na, location := .na,
    engagements := .na, mediatype := .na }

/-- The clean record produced from `rowAllNa`. -/
def recAllNa : CleanRecord :=
  { date := none, platform := unknownL, sentiment := unknownL, location := unknownL,
    engagements := 0, mediatype := unknownMediaL }

/-- The spec's §8 example table: 5 engagements on 2024-01-01,
15 on 2024-01-02 (dates in the `y*10000+m*100+d` encoding). -/
def exampleRows : List CleanRecord :=
  [ { date := some 20240101, platform := "X".toList, sentiment := unknownL,
      location := unknownL, engagements := 5, mediatype := unknownMediaL },
    { date := some 20240102, platform := "X".toList, sentiment := unknownL,
      location := unknownL, engagements := 15, mediatype := unknownMediaL } ]

/-- A table whose single row has a genuine platform and 0 engagements. -/
def zeroPlatformRow : CleanRecord :=
  { date := none, platform := "X".toList, sentiment := unknownL,
    location := unknownL, engagements := 0, mediatype := unknownMediaL }

/-- A record whose only distinguishing field is its location. -/
def locRow (c : Char) : CleanRecord :=
  { date := none, platform := unknownL, sentiment := unknownL,
    location := [c], engagements := 0, mediatype := unknownMediaL }

/-- Seven distinct locations with counts 7, 6, 5, 4, 3, 2, 1. -/
def sevenLocRows : List CleanRecord :=
  List.replicate 7 (locRow 'a') ++ List.replicate 6 (locRow 'b') ++
  List.replicate 5 (locRow 'c') ++ List.replicate 4 (locRow 'd') ++
  List.replicate 3 (locRow 'e') ++ List.replicate 2 (locRow 'f') ++
  [locRow 'g']

/-! ## Character-level facts about `toLower` and whitespace -/

theorem toNat_ofNat_valid {n : Nat} (hv : n.isValidChar) : (Char.ofNat n).toNat = n := by
  rw [Char.ofNat, dif_pos hv]
  simp [Char.ofNatAux, Char.toNat, UInt32.toNat]

theorem toLower_toLower (c : Char) : c.toLower.toLower = c.toLower := by
  unfold Char.toLower
  by_cases h : c.toNat ≥ 65 ∧ c.toNat ≤ 90
  · rw [if_pos h]
    have hv : (c.toNat + 32).isValidChar := by
      unfold Nat.isValidChar
      omega
    rw [toNat_ofNat_valid hv]
    rw [if_neg (by omega)]
  · rw [if_neg h, if_neg h]

theorem pyIsSpace_toLower (c : Char) : pyIsSpace c.toLower = pyIsSpace c := by
  unfold Char.toLower
  by_cases h : c.toNat ≥ 65 ∧ c.toNat ≤ 90
  · rw [if_pos h]
    have hv : (c.toNat + 32).isValidChar := by
      unfold Nat.isValidChar
      omega
    have h1 : pyIsSpace (Char.ofNat (c.toNat + 32)) = false := by
      simp only [pyIsSpace, decide_eq_false_iff_not, toNat_ofNat_valid hv]
      omega
    have h2 : pyIsSpace c = false := by
      simp only [pyIsSpace, decide_eq_false_iff_not]
      omega
    rw [h1, h2]
  · rw [if_neg h]

/-! ## Header normalization: key lemmas for the amended C5 -/



theorem eraseSeps_eq_filter (l : PyStr) :
    ((l.filter (· ≠ ' ')).filter (· ≠ '-')).filter (· ≠ '_') = l.filter notSep := by
  rw [List.filter_filter, List.filter_filter]
  apply List.filter_congr
  intro c _
  by_cases h1 : c = ' ' <;> by_cases h2 : c = '-' <;> by_cases h3 : c = '_' <;>
    simp [notSep, h1, h2, h3]

theorem normalize_eq_key_strip (s : PyStr) :
    normalize_column_name s = caseSepKey (pyStrip s) := by
  unfold normalize_column_name caseSepKey
  exact eraseSeps_eq_filter _

theorem dropWhile_eq_self_of_not (p : α → Bool) (l : List α)
    (h : ∀ c ∈ l, p c = false) : l.dropWhile p = l := by
  cases l with
  | nil => rfl
  | cons a l =>
    have ha : p a = false := h a (List.mem_cons_self a l)
    rw [List.dropWhile_cons_of_neg (by simp [ha])]

theorem pyStrip_eq_self_of_no_ws (s : PyStr)
    (h : ∀ c ∈ s, pyIsSpace c = false) : pyStrip s = s := by
  unfold pyStrip
  rw [dropWhile_eq_self_of_not _ _ h]
  rw [dropWhile_eq_self_of_not]
  · exact s.reverse_reverse
  · intro c hc
    exact h c (List.mem_reverse.mp hc)

theorem filter_map_dropWhile_ws (l : PyStr)
    (h : ∀ c ∈ l, pyIsSpace c = true → c = ' ') :
    ((l.dropWhile pyIsSpace).map Char.toLower).filter notSep
      = (l.map Char.toLower).filter notSep := by
  conv_rhs => rw [← List.takeWhile_append_dropWhile (p := pyIsSpace) (l := l)]
  rw [List.map_append, List.filter_append]
  have hnil : ((l.takeWhile pyIsSpace).map Char.toLower).filter notSep = [] := by
    rw [List.filter_eq_nil_iff]
    intro c hc
    rw [List.mem_map] at hc
    obtain ⟨c0, hc0, rfl⟩ := hc
    have hws : pyIsSpace c0 = true := List.mem_takeWhile_imp hc0
    have hmem : c0 ∈ l := (List.takeWhile_sublist _).subset hc0
    have : c0 = ' ' := h c0 hmem hws
    subst this
    simp [notSep, Char.toLower]
  rw [hnil, List.nil_append]

theorem caseSepKey_pyStrip (s : PyStr) (h : onlySpaceWS s) :
    caseSepKey (pyStrip s) = caseSepKey s := by
  unfold caseSepKey pyStrip
  have hsub : ∀ c ∈ (s.dropWhile pyIsSpace).reverse, pyIsSpace c = true → c = ' ' := by
    intro c hc hw
    exact h c ((List.dropWhile_sublist _).subset (List.mem_reverse.mp hc)) hw
  calc ((((s.dropWhile pyIsSpace).reverse.dropWhile pyIsSpace).reverse).map
          Char.toLower).filter notSep
      = ((((s.dropWhile pyIsSpace).reverse.dropWhile pyIsSpace).map
          Char.toLower).filter notSep).reverse := by
        rw [List.map_reverse, List.filter_reverse]
    _ = ((((s.dropWhile pyIsSpace).reverse).map Char.toLower).filter notSep).reverse := by
        rw [filter_map_dropWhile_ws _ hsub]
    _ = (((s.dropWhile pyIsSpace).map Char.toLower).filter notSep) := by
        rw [List.map_reverse, List.filter_reverse, List.reverse_reverse]
    _ = (s.map Char.toLower).filter notSep := filter_map_dropWhile_ws _ h

theorem mem_pyStrip {s : PyStr} {c : Char} (hc : c ∈ pyStrip s) : c ∈ s := by
  unfold pyStrip at hc
  rw [List.mem_reverse] at hc
  have hc2 := (List.dropWhile_sublist _).subset hc
  rw [List.mem_reverse] at hc2
  exact (List.dropWhile_sublist _).subset hc2

theorem mem_normalize {s : PyStr} {c : Char} (hc : c ∈ normalize_column_name s) :
    ∃ c0 ∈ s, c = c0.toLower ∧ notSep c = true := by
  rw [normalize_eq_key_strip] at hc
  unfold caseSepKey at hc
  rw [List.mem_filter] at hc
  obtain ⟨hmem, hsep⟩ := hc
  rw [List.mem_map] at hmem
  obtain ⟨c0, hc0, rfl⟩ := hmem
  exact ⟨c0, mem_pyStrip hc0, rfl, hsep⟩

theorem normalize_chars {s : PyStr} (h : onlySpaceWS s) :
    ∀ c ∈ normalize_column_name s,
      pyIsSpace c = false ∧ c.toLower = c ∧ notSep c = true := by
  intro c hc
  obtain ⟨c0, hc0, rfl, hsep⟩ := mem_normalize hc
  refine ⟨?_, toLower_toLower c0, hsep⟩
  rw [pyIsSpace_toLower]
  by_contra hw
  rw [Bool.not_eq_false] at hw
  have : c0 = ' ' := h c0 hc0 hw
  subst this
  simp [notSep, Char.toLower] at hsep

theorem normalize_idempotent_of_onlySpaceWS {s : PyStr} (h : onlySpaceWS s) :
    normalize_column_name (normalize_column_name s) = normalize_column_name s := by
  have hch := normalize_chars h
  rw [normalize_eq_key_strip (normalize_column_name s)]
  rw [pyStrip_eq_self_of_no_ws _ (fun c hc => (hch c hc).1)]
  unfold caseSepKey
  rw [List.map_congr_left (fun c hc => (hch c hc).2.1), List.map_id']
  exact List.filter_eq_self.mpr (fun c hc => (hch c hc).2.2)

theorem normalize_eq_caseSepKey_of_onlySpaceWS {s : PyStr} (h : onlySpaceWS s) :
    normalize_column_name s = caseSepKey s := by
  rw [normalize_eq_key_strip, caseSepKey_pyStrip s h]

/-! ## Generic facts about the stable insertion sort -/

theorem insertBy_perm (le : α → α → Bool) (a : α) (l : List α) :
    List.Perm (insertBy le a l) (a :: l) := by
  induction l with
  | nil => exact List.Perm.refl _
  | cons b bs ih =>
    unfold insertBy
    by_cases h : le a b
    · rw [if_pos h]
    · rw [if_neg h]
      exact (List.Perm.cons b ih).trans (List.Perm.swap a b bs)

theorem sortBy_perm (le : α → α → Bool) (l : List α) : List.Perm (sortBy le l) l := by
  induction l with
  | nil => exact List.Perm.refl _
  | cons a l ih =>
    unfold sortBy
    exact (insertBy_perm le a (sortBy le l)).trans (List.Perm.cons a ih)

theorem mem_sortBy {le : α → α → Bool} {l : List α} {a : α} :
    a ∈ sortBy le l ↔ a ∈ l :=
  (sortBy_perm le l).mem_iff

theorem pairwise_insertBy (R : α → α → Prop) (le : α → α → Bool)
    (htrans : ∀ x y z, R x y → R y z → R x z)
    (h1 : ∀ x y, le x y = true → R x y) (h2 : ∀ x y, le x y = false → R y x)
    (a : α) {l : List α} (hl : l.Pairwise R) : (insertBy le a l).Pairwise R := by
  induction l with
  | nil => simp [insertBy]
  | cons b bs ih =>
    rw [List.pairwise_cons] at hl
    obtain ⟨hb, hbs⟩ := hl
    unfold insertBy
    by_cases h : le a b
    · rw [if_pos h]
      rw [List.pairwise_cons]
      refine ⟨?_, List.pairwise_cons.mpr ⟨hb, hbs⟩⟩
      intro x hx
      rcases List.mem_cons.mp hx with rfl | hx
      · exact h1 a x h
      · exact htrans a b x (h1 a b h) (hb x hx)
    · rw [if_neg h]
      rw [List.pairwise_cons]
      refine ⟨?_, ih hbs⟩
      intro x hx
      have hx2 : x ∈ a :: bs := (insertBy_perm le a bs).subset hx
      rcases List.mem_cons.mp hx2 with rfl | hx2
      · exact h2 x b (Bool.eq_false_iff.mpr h)
      · exact hb x hx2

theorem pairwise_sortBy (R : α → α → Prop) (le : α → α → Bool)
    (htrans : ∀ x y z, R x y → R y z → R x z)
    (h1 : ∀ x y, le x y = true → R x y) (h2 : ∀ x y, le x y = false → R y x)
    (l : List α) : (sortBy le l).Pairwise R := by
  induction l with
  | nil => simp [sortBy]
  | cons a l ih =>
    unfold sortBy
    exact pairwise_insertBy R le htrans h1 h2 a ih

/-! ## Characterization of `process_row` -/

theorem process_row_ok_iff (r : RawRow) (rec : CleanRecord) :
    process_row r = .ok rec ↔
      r.engagements = Cell.na ∧
      rec = { date := if r.date.notna then to_datetime_coerce r.date else none,
              platform := clean_text r.platform,
              sentiment := clean_text r.sentiment,
              location := clean_text r.location,
              engagements := 0,
              mediatype := if clean_text r.mediatype = unknownL then unknownMediaL
                           else clean_text r.mediatype } := by
  cases e : r.engagements with
  | na =>
    simp only [process_row, coerce_engagements, e, Cell.notna, Bool.false_eq_true, if_false,
      pure, Except.pure, Except.bind, bind, eq_self_iff_true, true_and]
    constructor
    · intro h
      cases h
      rfl
    · intro h
      rw [h]
  | str s =>
    simp only [process_row, coerce_engagements, e, Cell.notna, if_true, scalar_fillna,
      Except.bind, bind, Except.error.injEq, reduceCtorEq, false_and, iff_false]
  | num n =>
    simp only [process_row, coerce_engagements, e, Cell.notna, if_true, scalar_fillna,
      Except.bind, bind, Except.error.injEq, reduceCtorEq, false_and, iff_false]

theorem process_row_error_of_notna (r : RawRow) (h : r.engagements.notna = true) :
    process_row r = .error .attributeError := by
  cases e : r.engagements with
  | na => rw [e] at h; cases h
  | str s =>
    simp only [process_row, coerce_engagements, e, Cell.notna, if_true, scalar_fillna,
      Except.bind, bind]
  | num n =>
    simp only [process_row, coerce_engagements, e, Cell.notna, if_true, scalar_fillna,
      Except.bind, bind]




/-! ## Shared concrete inputs -/



theorem process_row_def (r : RawRow) :
    process_row r = Except.map (fun eng =>
      { date := if r.date.notna then to_datetime_coerce r.date else none,
        platform := clean_text r.platform,
        sentiment := clean_text r.sentiment,
        location := clean_text r.location,
        engagements := eng,
        mediatype := if clean_text r.mediatype = unknownL then unknownMediaL
                     else clean_text r.mediatype }) (coerce_engagements r.engagements) := by
  cases h : coerce_engagements r.engagements <;>
    simp [process_row, h, Except.map, Except.bind, bind, pure, Except.pure, clean_text]

theorem clean_text_eq_unknown_iff (c : Cell) :
    clean_text c = unknownL ↔ (c = Cell.na ∨ pyStrip c.pyRepr = unknownL) := by
  cases c <;> simp [clean_text, Cell.notna, Cell.pyRepr]

/-! ## Claims -/

/-- Claim C1. The claim states that `process_csv` is total (no exception for
any single bad field, unparseable engagements degrade to 0).  In fact the
engagements branch (line 164) calls `.fillna(0)` on the scalar returned by
`pd.to_numeric(value, errors='coerce')`, and scalars have no `fillna`
attribute: every row whose engagements cell is non-null (parseable or not)
raises `AttributeError`, which propagates out of `process_csv`. -/
theorem c1_record_cleaner_raises_on_nonnull_engagements :
    (∀ r : RawRow, r.engagements.notna = true → process_row r = .error .attributeError) ∧
    process_csv [{ rowAllNa with engagements := Cell.num 5 }] = .error .attributeError := by
  refine ⟨process_row_error_of_notna, rfl⟩

/-- Witness for C1: the hypothesis holds at the concrete row whose
engagements cell is the number 5. -/
theorem c1_record_cleaner_raises_witness :
    (Cell.num 5).notna = true ∧
    process_row { rowAllNa with engagements := Cell.num 5 } = .error .attributeError :=
  ⟨rfl, c1_record_cleaner_raises_on_nonnull_engagements.1 _ rfl⟩

/-- Claim C2. The claim states that an absent or unparseable engagements
value yields 0 and the cleaned field is never negative.  The absent case
does yield 0, but an unparseable *present* value (e.g. the string "oops")
does not yield 0: line 164 raises `AttributeError` (no record is produced
at all), contradicting the claim and the spec's documented default. -/
theorem c2_engagements_unparseable_raises_instead_of_zero :
    coerce_engagements (Cell.str "oops".toList) = .error .attributeError ∧
    process_csv [{ rowAllNa with engagements := Cell.str "oops".toList }]
      = .error .attributeError ∧
    process_csv [rowAllNa] = .ok [recAllNa] :=
  ⟨rfl, rfl, rfl⟩

/-- Claim C3, counterexample. A present, whitespace-only platform cell cleans
to the *empty string*, not to `"Unknown"`: `pd.notna("   ")` holds, so the
text branch takes `str(value).strip() = ""`, refuting the claim's
"empty or absent (including whitespace-only) becomes Unknown". -/
theorem c3_whitespace_only_not_unknown :
    process_row { rowAllNa with platform := Cell.str "   ".toList }
      = .ok { recAllNa with platform := [] } ∧
    ([] : PyStr) ≠ unknownL :=
  ⟨rfl, by decide⟩

/-- Claim C3, amended. For every input row and each text field (platform,
sentiment, location): the cleaned value is the stringified, trimmed source
value whenever the source is non-null — even when that trim is the empty
string — and it equals `"Unknown"` exactly when the source is absent (NA)
or itself trims to the literal `"Unknown"`.  A whitespace-only present
value therefore yields `""`, not `"Unknown"`. -/
theorem c3_text_fields_trimmed_unknown_iff_na (r : RawRow) (rec : CleanRecord)
    (h : process_row r = .ok rec) :
    (rec.platform = clean_text r.platform ∧ rec.sentiment = clean_text r.sentiment ∧
     rec.location = clean_text r.location) ∧
    (r.platform.notna = true → rec.platform = pyStrip r.platform.pyRepr) ∧
    (r.sentiment.notna = true → rec.sentiment = pyStrip r.sentiment.pyRepr) ∧
    (r.location.notna = true → rec.location = pyStrip r.location.pyRepr) ∧
    (rec.platform = unknownL ↔ (r.platform = Cell.na ∨ pyStrip r.platform.pyRepr = unknownL)) ∧
    (rec.sentiment = unknownL ↔ (r.sentiment = Cell.na ∨ pyStrip r.sentiment.pyRepr = unknownL)) ∧
    (rec.location = unknownL ↔ (r.location = Cell.na ∨ pyStrip r.location.pyRepr = unknownL)) := by
  rw [process_row_ok_iff] at h
  obtain ⟨-, rfl⟩ := h
  refine ⟨⟨rfl, rfl, rfl⟩, ?_, ?_, ?_, clean_text_eq_unknown_iff _, clean_text_eq_unknown_iff _,
    clean_text_eq_unknown_iff _⟩ <;>
    · intro hna
      simp [clean_text, hna]

/-- Witness for C3 (amended) at a concrete row with a whitespace-only
platform and an absent sentiment. -/
theorem c3_text_fields_witness :
    process_row { rowAllNa with platform := Cell.str "   ".toList }
        = .ok { recAllNa with platform := [] } ∧
    ({ recAllNa with platform := ([] : PyStr) }.platform
        = clean_text (Cell.str "   ".toList) ∧
     { recAllNa with platform := ([] : PyStr) }.sentiment = clean_text Cell.na ∧
     { recAllNa with platform := ([] : PyStr) }.location = clean_text Cell.na) :=
  ⟨rfl, (c3_text_fields_trimmed_unknown_iff_na
      { rowAllNa with platform := Cell.str "   ".toList }
      { recAllNa with platform := [] } rfl).1⟩

/-- Claim C4. Every cleaned record's `mediatype` differs from the bare
string `"Unknown"`: lines 168–170 rewrite a cleaned `"Unknown"` into the
sentinel `"Unknown Media Type"`. -/
theorem c4_mediatype_never_bare_unknown (r : RawRow) (rec : CleanRecord)
    (h : process_row r = .ok rec) : rec.mediatype ≠ unknownL := by
  rw [process_row_ok_iff] at h
  obtain ⟨-, rfl⟩ := h
  by_cases hm : clean_text r.mediatype = unknownL
  · simp only [hm, if_pos rfl]
    decide
  · simp [hm]

/-- Witness for C4 at the concrete all-NA row. -/
theorem c4_mediatype_witness :
    process_row rowAllNa = .ok recAllNa ∧ recAllNa.mediatype ≠ unknownL :=
  ⟨rfl, c4_mediatype_never_bare_unknown rowAllNa recAllNa rfl⟩

/-- Claim C5, counterexample. `normalize_column_name` strips *before*
deleting separators, so for the header `"a<TAB> -"` the first pass leaves
a trailing TAB (`"a<TAB>"`), which a second pass then strips: idempotence
fails.  The same input also refutes separator-insensitivity: `"a<TAB>-"`
and `"a<TAB>"` differ only by a hyphen yet normalize differently.  The
failure is not specific to TAB — any stripped-but-not-deleted whitespace
character does it, as the VT (`\x0B`) and NBSP (`\xA0`) conjuncts show. -/
theorem c5_normalize_counterexample :
    (normalize_column_name (normalize_column_name ['a', '\t', ' ', '-'])
        ≠ normalize_column_name ['a', '\t', ' ', '-'] ∧
     caseSepKey ['a', '\t', '-'] = caseSepKey ['a', '\t'] ∧
     normalize_column_name ['a', '\t', '-'] ≠ normalize_column_name ['a', '\t']) ∧
    (normalize_column_name (normalize_column_name ['a', '\x0B', ' ', '-'])
        ≠ normalize_column_name ['a', '\x0B', ' ', '-'] ∧
     normalize_column_name (normalize_column_name ['a', '\xA0', ' ', '-'])
        ≠ normalize_column_name ['a', '\xA0', ' ', '-']) ∧
    (normalize_column_name ['a', '\xA0', '-'] ≠ normalize_column_name ['a', '\xA0'] ∧
     caseSepKey ['a', '\xA0', '-'] = caseSepKey ['a', '\xA0']) :=
  ⟨⟨by decide, by decide, by decide⟩, ⟨by decide, by decide⟩, ⟨by decide, by decide⟩⟩

/-- Claim C5, amended. Restricted to header strings whose
Python-whitespace characters (the set `str.strip()` removes, `pyIsSpace`)
are all the plain space character — which covers the documented examples —
`normalize_column_name` is idempotent and case/separator-insensitive: two
such headers with the same residue after lowercasing and deleting
space/hyphen/underscore normalize equal; and `"Media Type"`,
`"media_type"`, `"MEDIATYPE"` agree.  Headers with any other stripped
whitespace character (TAB, VT, FF, CR, LF, FS..US, NEL, NBSP, Unicode
spaces) adjacent to leading/trailing separators violate both properties,
because `strip()` runs before the separator deletions. -/
theorem c5_normalize_idempotent_and_insensitive :
    (∀ s : PyStr, onlySpaceWS s →
        normalize_column_name (normalize_column_name s) = normalize_column_name s) ∧
    (∀ s t : PyStr, onlySpaceWS s → onlySpaceWS t → caseSepKey s = caseSepKey t →
        normalize_column_name s = normalize_column_name t) ∧
    normalize_column_name "Media Type".toList = normalize_column_name "media_type".toList ∧
    normalize_column_name "media_type".toList = normalize_column_name "MEDIATYPE".toList := by
  refine ⟨fun s h => normalize_idempotent_of_onlySpaceWS h, fun s t hs ht hk => ?_,
    by decide, by decide⟩
  rw [normalize_eq_caseSepKey_of_onlySpaceWS hs, normalize_eq_caseSepKey_of_onlySpaceWS ht, hk]

/-- Witness for C5 (amended) at the documented examples. -/
theorem c5_normalize_witness :
    (onlySpaceWS "Media Type".toList ∧
     normalize_column_name (normalize_column_name "Media Type".toList)
        = normalize_column_name "Media Type".toList) ∧
    (caseSepKey "Media Type".toList = caseSepKey "MEDIATYPE".toList ∧
     normalize_column_name "Media Type".toList = normalize_column_name "MEDIATYPE".toList) :=
  ⟨⟨by decide, c5_normalize_idempotent_and_insensitive.1 _ (by decide)⟩,
   ⟨by decide, c5_normalize_idempotent_and_insensitive.2.1 _ _ (by decide) (by decide) (by decide)⟩⟩

/-- Claim C10. A raw mediatype cell that stringifies and trims to exactly
`"Unknown"` produces the very same cleaned row as an absent mediatype
cell, so the two are indistinguishable in every downstream aggregate. -/
theorem c10_unknown_mediatype_indistinguishable_from_absent (r : RawRow)
    (h : pyStrip r.mediatype.pyRepr = unknownL) :
    process_row r = process_row { r with mediatype := Cell.na } := by
  have h1 : clean_text r.mediatype = unknownL := by
    cases e : r.mediatype <;> simp [clean_text, Cell.notna, Cell.pyRepr] <;>
      · rw [e] at h
        simpa [Cell.pyRepr] using h
  rw [process_row_def, process_row_def]
  congr 1
  funext eng
  simp only [h1]
  rfl

/-- Witness for C10: the literal string cell `" Unknown "`. -/
theorem c10_unknown_mediatype_witness :
    pyStrip (Cell.str " Unknown ".toList).pyRepr = unknownL ∧
    process_row { rowAllNa with mediatype := Cell.str " Unknown ".toList }
      = process_row { { rowAllNa with mediatype := Cell.str " Unknown ".toList }
                      with mediatype := Cell.na } :=
  ⟨by decide, c10_unknown_mediatype_indistinguishable_from_absent _ (by decide)⟩

/-! ## Daily engagement series: supporting lemmas for C6 -/



theorem datedEngagements_cons (r : CleanRecord) (rs : List CleanRecord) :
    datedEngagements (r :: rs) = (match r.date with
      | none => datedEngagements rs
      | some d => (d, r.engagements) :: datedEngagements rs) := by
  cases hd : r.date <;> simp [datedEngagements, List.filterMap_cons, hd]

theorem datedEngagements_filter_map (rows : List CleanRecord) (d : Nat) :
    (((datedEngagements rows).filter (fun p => p.1 = d)).map (·.2))
      = ((rows.filter (fun r => r.date = some d)).map (·.engagements)) := by
  induction rows with
  | nil => rfl
  | cons r rs ih =>
    rw [datedEngagements_cons]
    cases hd : r.date with
    | none =>
      simp only [hd, List.filter_cons]
      rw [if_neg (by simp)]
      exact ih
    | some d' =>
      by_cases hdd : d' = d
      · subst hdd
        simp only [hd, List.filter_cons]
        rw [if_pos (by simp), if_pos (by simp), List.map_cons, List.map_cons, ih]
      · simp only [hd, List.filter_cons]
        rw [if_neg (by simp [hdd]), if_neg (by simp [hdd])]
        exact ih

theorem mem_map_fst_datedEngagements (rows : List CleanRecord) (d : Nat) :
    d ∈ (datedEngagements rows).map Prod.fst ↔ ∃ r ∈ rows, r.date = some d := by
  simp only [datedEngagements, List.mem_map, List.mem_filterMap, Option.map_eq_some']
  constructor
  · rintro ⟨p, ⟨r, hr, d0, hd0, rfl⟩, rfl⟩
    exact ⟨r, hr, hd0⟩
  · rintro ⟨r, hr, hd⟩
    exact ⟨(d, r.engagements), ⟨r, hr, d, hd, rfl⟩, rfl⟩

theorem engagements_by_date_eq (rows : List CleanRecord) :
    engagements_by_date rows
      = (sortBy dateLe ((datedEngagements rows).map Prod.fst).dedup).map
          (fun d => (d, dateSum rows d)) := by
  unfold engagements_by_date
  apply List.map_congr_left
  intro d _
  rw [Prod.mk.injEq]
  refine ⟨rfl, ?_⟩
  rw [dateSum, ← datedEngagements_filter_map rows d]

theorem dateLe_true {a b : Nat} (h : dateLe a b = true) : a ≤ b := by
  simpa [dateLe] using h

theorem dateLe_false {a b : Nat} (h : dateLe a b = false) : b ≤ a := by
  simp [dateLe] at h
  omega

theorem series_dates_sorted (rows : List CleanRecord) :
    ((engagements_by_date rows).map Prod.fst).Pairwise (· < ·) := by
  rw [engagements_by_date_eq, List.map_map]
  have hid : (Prod.fst ∘ fun d => (d, dateSum rows d)) = id := rfl
  rw [hid, List.map_id]
  set dd := ((datedEngagements rows).map Prod.fst).dedup with hdd
  have hle : (sortBy dateLe dd).Pairwise (· ≤ ·) :=
    pairwise_sortBy (· ≤ ·) dateLe (fun x y z h1 h2 => Nat.le_trans h1 h2)
      (fun x y h => dateLe_true h) (fun x y h => dateLe_false h) dd
  have hnd : (sortBy dateLe dd).Nodup :=
    ((sortBy_perm dateLe dd).nodup_iff).mpr (List.nodup_dedup _)
  exact (hle.and hnd).imp (fun h => Nat.lt_of_le_of_ne h.1 h.2)

theorem mem_series_dates_iff (rows : List CleanRecord) (d : Nat) :
    d ∈ (engagements_by_date rows).map Prod.fst ↔ ∃ r ∈ rows, r.date = some d := by
  rw [engagements_by_date_eq, List.map_map]
  have hid : (Prod.fst ∘ fun d => (d, dateSum rows d)) = id := rfl
  rw [hid, List.map_id, mem_sortBy, List.mem_dedup, mem_map_fst_datedEngagements]

theorem mem_series_snd (rows : List CleanRecord) :
    ∀ p ∈ engagements_by_date rows, p.2 = dateSum rows p.1 := by
  rw [engagements_by_date_eq]
  intro p hp
  rw [List.mem_map] at hp
  obtain ⟨d, -, rfl⟩ := hp
  rfl

theorem find_all_eq_some_spec (cmp : Int → Int → Bool) (m s : List (Nat × Int))
    (p : Nat × Int) (h : s.find? (fun q => m.all (fun x => cmp x.2 q.2)) = some p) :
    p ∈ s ∧ ∀ x ∈ m, cmp x.2 p.2 = true := by
  have h1 := List.find?_some h
  have h2 := List.mem_of_find?_eq_some h
  rw [List.all_eq_true] at h1
  exact ⟨h2, fun x hx => h1 x hx⟩

theorem find_all_first (cmp : Int → Int → Bool) (m : List (Nat × Int)) :
    ∀ (s : List (Nat × Int)), (s.map Prod.fst).Pairwise (· < ·) →
      ∀ p, s.find? (fun q => m.all (fun x => cmp x.2 q.2)) = some p →
      ∀ q ∈ s, (∀ x ∈ m, cmp x.2 q.2 = true) → p.1 ≤ q.1 := by
  intro s
  induction s with
  | nil =>
    intro _ p h
    simp [List.find?] at h
  | cons a s ih =>
    intro hs p h q hq hqall
    have hs' := hs
    rw [List.map_cons, List.pairwise_cons] at hs'
    obtain ⟨ha_lt, hs_tail⟩ := hs'
    rw [List.find?_cons] at h
    cases hcond : (m.all (fun x => cmp x.2 a.2)) with
    | true =>
      rw [hcond] at h
      cases h
      rcases List.mem_cons.mp hq with rfl | hq2
      · exact Nat.le_refl _
      · exact Nat.le_of_lt (ha_lt q.1 (List.mem_map_of_mem Prod.fst hq2))
    | false =>
      rw [hcond] at h
      rcases List.mem_cons.mp hq with rfl | hq2
      · have hta : m.all (fun x => cmp x.2 q.2) = true :=
          List.all_eq_true.mpr (fun x hx => hqall x hx)
        rw [hta] at hcond
        cases hcond
      · exact ih hs_tail p h q hq2 hqall

theorem exists_all_extreme (cmp : Int → Int → Bool)
    (htot : ∀ a b : Int, cmp a b = true ∨ cmp b a = true)
    (htr : ∀ a b c : Int, cmp a b = true → cmp b c = true → cmp a c = true) :
    ∀ s : List (Nat × Int), s ≠ [] → ∃ p ∈ s, ∀ q ∈ s, cmp q.2 p.2 = true := by
  intro s
  induction s with
  | nil => intro h; exact absurd rfl h
  | cons a s ih =>
    intro _hne
    by_cases hs : s = []
    · subst hs
      refine ⟨a, List.mem_cons_self a [], ?_⟩
      intro q hq
      rcases List.mem_cons.mp hq with rfl | hq2
      · rcases htot q.2 q.2 with h | h <;> exact h
      · cases hq2
    · obtain ⟨p, hp, hall⟩ := ih hs
      by_cases hc : cmp p.2 a.2 = true
      · refine ⟨a, List.mem_cons_self a s, ?_⟩
        intro q hq
        rcases List.mem_cons.mp hq with rfl | hq2
        · rcases htot q.2 q.2 with h | h <;> exact h
        · exact htr q.2 p.2 a.2 (hall q hq2) hc
      · have hac : cmp a.2 p.2 = true := (htot p.2 a.2).resolve_left hc
        refine ⟨p, List.mem_cons_of_mem a hp, ?_⟩
        intro q hq
        rcases List.mem_cons.mp hq with rfl | hq2
        · exact hac
        · exact hall q hq2

theorem firstExtreme_eq_some (cmp : Int → Int → Bool)
    (htot : ∀ a b : Int, cmp a b = true ∨ cmp b a = true)
    (htr : ∀ a b c : Int, cmp a b = true → cmp b c = true → cmp a c = true)
    (s : List (Nat × Int)) (hne : s ≠ []) :
    ∃ p, firstExtreme cmp s = some p := by
  obtain ⟨p, hp, hall⟩ := exists_all_extreme cmp htot htr s hne
  have : (s.find? (fun q => s.all (fun x => cmp x.2 q.2))).isSome := by
    rw [List.find?_isSome]
    exact ⟨p, hp, by rw [List.all_eq_true]; exact hall⟩
  unfold firstExtreme
  exact Option.isSome_iff_exists.mp this



/-- Claim C6. The Daily Engagement Aggregator: dates in the series are
strictly ascending; a date appears iff some row carries it (sentinel-date
rows are excluded); each entry's value is the engagement sum over the
rows of that date; on an empty series the insights are the no-data
signal; on a nonempty series the reported max/min are attained in the
series, bound every daily sum, break ties by the earliest date, and the
total and mean (total divided by the number of distinct dates) are as
specified. -/
theorem c6_daily_engagement_aggregator (rows : List CleanRecord) :
    ((engagements_by_date rows).map Prod.fst).Pairwise (· < ·) ∧
    (∀ d : Nat, d ∈ (engagements_by_date rows).map Prod.fst ↔ ∃ r ∈ rows, r.date = some d) ∧
    (∀ p ∈ engagements_by_date rows, p.2 = dateSum rows p.1) ∧
    (engagements_by_date rows = [] → get_engagement_insights rows = none) ∧
    (engagements_by_date rows ≠ [] → ∃ st : EngagementStats,
      get_engagement_insights rows = some st ∧
      (st.maxDate, st.maxVal) ∈ engagements_by_date rows ∧
      (∀ p ∈ engagements_by_date rows, p.2 ≤ st.maxVal) ∧
      (∀ p ∈ engagements_by_date rows, p.2 = st.maxVal → st.maxDate ≤ p.1) ∧
      (st.minDate, st.minVal) ∈ engagements_by_date rows ∧
      (∀ p ∈ engagements_by_date rows, st.minVal ≤ p.2) ∧
      (∀ p ∈ engagements_by_date rows, p.2 = st.minVal → st.minDate ≤ p.1) ∧
      st.total = ((engagements_by_date rows).map (·.2)).sum ∧
      st.average = (st.total : ℚ) / ((engagements_by_date rows).length : ℚ)) := by
  refine ⟨series_dates_sorted rows, mem_series_dates_iff rows, mem_series_snd rows, ?_, ?_⟩
  · intro h
    simp only [get_engagement_insights, h]
    rfl
  · intro hne
    have htot1 : ∀ a b : Int, (fun x y : Int => decide (x ≤ y)) a b = true ∨
        (fun x y : Int => decide (x ≤ y)) b a = true := by
      intro a b
      rcases Int.le_total a b with h | h
      · exact Or.inl (decide_eq_true h)
      · exact Or.inr (decide_eq_true h)
    have htr1 : ∀ a b c : Int, (fun x y : Int => decide (x ≤ y)) a b = true →
        (fun x y : Int => decide (x ≤ y)) b c = true →
        (fun x y : Int => decide (x ≤ y)) a c = true := by
      intro a b c h1 h2
      exact decide_eq_true (Int.le_trans (of_decide_eq_true h1) (of_decide_eq_true h2))
    have htot2 : ∀ a b : Int, (fun x y : Int => decide (x ≥ y)) a b = true ∨
        (fun x y : Int => decide (x ≥ y)) b a = true := by
      intro a b
      rcases Int.le_total a b with h | h
      · exact Or.inr (decide_eq_true h)
      · exact Or.inl (decide_eq_true h)
    have htr2 : ∀ a b c : Int, (fun x y : Int => decide (x ≥ y)) a b = true →
        (fun x y : Int => decide (x ≥ y)) b c = true →
        (fun x y : Int => decide (x ≥ y)) a c = true := by
      intro a b c h1 h2
      exact decide_eq_true (Int.le_trans (of_decide_eq_true h2) (of_decide_eq_true h1))
    obtain ⟨pM, hM⟩ := firstExtreme_eq_some _ htot1 htr1 (engagements_by_date rows) hne
    obtain ⟨pm, hm⟩ := firstExtreme_eq_some _ htot2 htr2 (engagements_by_date rows) hne
    have hins : get_engagement_insights rows
        = some { maxDate := pM.1, maxVal := pM.2, minDate := pm.1, minVal := pm.2,
                 total := ((engagements_by_date rows).map (·.2)).sum,
                 average := (((engagements_by_date rows).map (·.2)).sum : ℚ)
                            / ((engagements_by_date rows).length : ℚ) } := by
      simp only [get_engagement_insights]
      rw [hM, hm]
    unfold firstExtreme at hM hm
    obtain ⟨hMmem, hMall⟩ :=
      find_all_eq_some_spec (fun x y : Int => decide (x ≤ y)) _ _ _ hM
    obtain ⟨hmmem, hmall⟩ :=
      find_all_eq_some_spec (fun x y : Int => decide (x ≥ y)) _ _ _ hm
    refine ⟨_, hins, ?_, ?_, ?_, ?_, ?_, ?_, rfl, ?_⟩
    · simpa using hMmem
    · intro p hp
      exact of_decide_eq_true (hMall p hp)
    · intro p hp hpv
      refine find_all_first (fun x y : Int => decide (x ≤ y)) _ _
        (series_dates_sorted rows) pM hM p hp ?_
      intro x hx
      refine decide_eq_true ?_
      rw [hpv]
      exact of_decide_eq_true (hMall x hx)
    · simpa using hmmem
    · intro p hp
      exact of_decide_eq_true (hmall p hp)
    · intro p hp hpv
      refine find_all_first (fun x y : Int => decide (x ≥ y)) _ _
        (series_dates_sorted rows) pm hm p hp ?_
      intro x hx
      refine decide_eq_true ?_
      rw [hpv]
      exact of_decide_eq_true (hmall x hx)
    · show (((engagements_by_date rows).map (fun x => (x.2 : ℚ))).sum)
          / ((engagements_by_date rows).length : ℚ)
        = ((((engagements_by_date rows).map (fun x => x.2)).sum : ℤ) : ℚ)
          / ((engagements_by_date rows).length : ℚ)
      rw [Int.cast_list_sum, List.map_map]
      rfl

/-- Witness for C6 at the spec's §8 example series. -/
theorem c6_daily_engagement_witness :
    engagements_by_date exampleRows ≠ [] ∧
    (∃ st : EngagementStats,
      get_engagement_insights exampleRows = some st ∧
      (st.maxDate, st.maxVal) ∈ engagements_by_date exampleRows ∧
      (∀ p ∈ engagements_by_date exampleRows, p.2 ≤ st.maxVal) ∧
      (∀ p ∈ engagements_by_date exampleRows, p.2 = st.maxVal → st.maxDate ≤ p.1) ∧
      (st.minDate, st.minVal) ∈ engagements_by_date exampleRows ∧
      (∀ p ∈ engagements_by_date exampleRows, st.minVal ≤ p.2) ∧
      (∀ p ∈ engagements_by_date exampleRows, p.2 = st.minVal → st.minDate ≤ p.1) ∧
      st.total = ((engagements_by_date exampleRows).map (·.2)).sum ∧
      st.average = (st.total : ℚ) / ((engagements_by_date exampleRows).length : ℚ)) :=
  ⟨by decide, (c6_daily_engagement_aggregator exampleRows).2.2.2.2 (by decide)⟩

/-- Claim C7, counterexample. A two-date series whose daily sums are all 0
has a non-positive total, so the rule takes the `'no clear trend yet'`
branch instead of the stable statement the claim requires (0 is neither
above 110% nor below 90% of 0). -/
theorem c7_trend_counterexample :
    engagement_trend [(0, 0), (1, 0)] = TrendRec.noClearTrend ∧
    engagement_trend [(0, 0), (1, 0)] ≠ TrendRec.stable ∧
    ¬((0 : ℚ) > (0 : ℚ) * (11 / 10)) ∧ ¬((0 : ℚ) < (0 : ℚ) * (9 / 10)) :=
  ⟨by decide, by decide, by norm_num, by norm_num⟩

/-- Claim C7, amended. The trend rule on the daily series: an empty series
gives the no-data statement and a one-date series the limited-data
statement.  With at least two dates **and a positive total sum** the rule
compares first and last daily sums exactly as claimed (upward iff last >
110% of first, else declining iff last < 90% of first, else stable — a
change of exactly 10% stays stable); with at least two dates but a
non-positive total it instead produces the no-clear-trend statement. -/
theorem c7_engagement_trend_rule (s : List (Nat × Int)) :
    (s = [] → engagement_trend s = TrendRec.noData) ∧
    (s.length = 1 → engagement_trend s = TrendRec.limitedData) ∧
    (∀ f l : Nat × Int, s.head? = some f → s.getLast? = some l → 2 ≤ s.length →
      (0 < (s.map (·.2)).sum →
        ((engagement_trend s = TrendRec.upward ↔ (l.2 : ℚ) > (f.2 : ℚ) * (11 / 10)) ∧
         (engagement_trend s = TrendRec.declining ↔
            ¬((l.2 : ℚ) > (f.2 : ℚ) * (11 / 10)) ∧ (l.2 : ℚ) < (f.2 : ℚ) * (9 / 10)) ∧
         (engagement_trend s = TrendRec.stable ↔
            ¬((l.2 : ℚ) > (f.2 : ℚ) * (11 / 10)) ∧ ¬((l.2 : ℚ) < (f.2 : ℚ) * (9 / 10))))) ∧
      ((s.map (·.2)).sum ≤ 0 → engagement_trend s = TrendRec.noClearTrend)) := by
  rcases s with _ | ⟨p, _ | ⟨q, rest⟩⟩
  · refine ⟨fun _ => rfl, fun h => by simp at h, ?_⟩
    intro f l hf _hl h2
    simp at hf
  · refine ⟨fun h => by simp at h, fun _ => rfl, ?_⟩
    intro f l hf hl h2
    simp at h2
  · refine ⟨fun h => by simp at h, fun h => by simp at h, ?_⟩
    intro f l hf hl _h2
    have hf2 : p = f := by
      rw [List.head?_cons] at hf
      exact Option.some.inj hf
    subst hf2
    have hl2 : (q :: rest).getLast (List.cons_ne_nil q rest) = l := by
      rw [List.getLast?_cons_cons] at hl
      rw [List.getLast?_eq_getLast (q :: rest) (List.cons_ne_nil q rest)] at hl
      exact Option.some.inj hl
    subst hl2
    simp only [engagement_trend]
    constructor
    · intro hpos
      rw [if_pos hpos]
      by_cases hu : (((q :: rest).getLast (List.cons_ne_nil q rest)).2 : ℚ)
          > (p.2 : ℚ) * (11 / 10)
      · rw [if_pos hu]
        refine ⟨⟨fun _ => hu, fun _ => rfl⟩, ?_, ?_⟩
        · constructor
          · intro h
            cases h
          · rintro ⟨hnu, -⟩
            exact absurd hu hnu
        · constructor
          · intro h
            cases h
          · rintro ⟨hnu, -⟩
            exact absurd hu hnu
      · rw [if_neg hu]
        by_cases hd : (((q :: rest).getLast (List.cons_ne_nil q rest)).2 : ℚ)
            < (p.2 : ℚ) * (9 / 10)
        · rw [if_pos hd]
          refine ⟨?_, ⟨fun _ => ⟨hu, hd⟩, fun _ => rfl⟩, ?_⟩
          · constructor
            · intro h
              cases h
            · intro h
              exact absurd h hu
          · constructor
            · intro h
              cases h
            · rintro ⟨-, hnd⟩
              exact absurd hd hnd
        · rw [if_neg hd]
          refine ⟨?_, ?_, ⟨fun _ => ⟨hu, hd⟩, fun _ => rfl⟩⟩
          · constructor
            · intro h
              cases h
            · intro h
              exact absurd h hu
          · constructor
            · intro h
              cases h
            · rintro ⟨-, hdd⟩
              exact absurd hdd hd
    · intro hnonpos
      rw [if_neg (by omega)]

/-- Witness for C7 at the spec's example (first = 10, last = 12, a 20%
increase → the upward statement). -/
theorem c7_engagement_trend_witness :
    (([((0 : Nat), (10 : Int)), (1, 12)]).head? = some (0, 10) ∧
     ([((0 : Nat), (10 : Int)), (1, 12)]).getLast? = some (1, 12) ∧
     2 ≤ ([((0 : Nat), (10 : Int)), (1, 12)]).length ∧
     0 < (([((0 : Nat), (10 : Int)), (1, 12)]).map (·.2)).sum) ∧
    ((engagement_trend [(0, 10), (1, 12)] = TrendRec.upward ↔
        ((((1 : Nat), (12 : Int)).2 : ℚ) > (((0 : Nat), (10 : Int)).2 : ℚ) * (11 / 10))) ∧
     (engagement_trend [(0, 10), (1, 12)] = TrendRec.declining ↔
        ¬((((1 : Nat), (12 : Int)).2 : ℚ) > (((0 : Nat), (10 : Int)).2 : ℚ) * (11 / 10)) ∧
          ((((1 : Nat), (12 : Int)).2 : ℚ) < (((0 : Nat), (10 : Int)).2 : ℚ) * (9 / 10))) ∧
     (engagement_trend [(0, 10), (1, 12)] = TrendRec.stable ↔
        ¬((((1 : Nat), (12 : Int)).2 : ℚ) > (((0 : Nat), (10 : Int)).2 : ℚ) * (11 / 10)) ∧
          ¬((((1 : Nat), (12 : Int)).2 : ℚ) < (((0 : Nat), (10 : Int)).2 : ℚ) * (9 / 10)))) :=
  ⟨⟨rfl, by decide, by decide, by decide⟩,
   ((c7_engagement_trend_rule [(0, 10), (1, 12)]).2.2 (0, 10) (1, 12) rfl (by decide)
      (by decide)).1 (by decide)⟩

/-! ## Top-category rules: supporting lemmas for C8 -/

theorem value_counts_pos (l : List PyStr) : ∀ p ∈ value_counts l, 0 < p.2 := by
  intro p hp
  unfold value_counts at hp
  rw [mem_sortBy, List.mem_map] at hp
  obtain ⟨k, hk, rfl⟩ := hp
  have hmem : k ∈ l := List.mem_dedup.mp hk
  have h0 : 0 < l.count k := List.count_pos_iff.mpr hmem
  show (0 : Int) < (l.count k : Int)
  exact_mod_cast h0

theorem top_category_rec_head (sentinel k : PyStr) (v : Int) (t : List (PyStr × Int)) :
    (top_category_rec sentinel ((k, v) :: t) = CatRec.focus k ↔ k ≠ sentinel ∧ 0 < v) ∧
    (top_category_rec sentinel ((k, v) :: t) = CatRec.dataMissing ↔ k = sentinel) ∧
    (top_category_rec sentinel ((k, v) :: t) = CatRec.noData ↔ k ≠ sentinel ∧ v ≤ 0) := by
  simp only [top_category_rec]
  by_cases h1 : k = sentinel
  · rw [if_neg (by simp [h1]), if_pos h1]
    refine ⟨?_, ?_, ?_⟩ <;> simp [h1]
  · by_cases h2 : 0 < v
    · rw [if_pos ⟨h1, h2⟩]
      refine ⟨?_, ?_, ?_⟩
      · simp [h1, h2]
      · simp [h1]
      · simp only [iff_false, reduceCtorEq, false_iff, not_and, not_le]
        intro _
        exact h2
    · rw [if_neg (by tauto), if_neg h1]
      refine ⟨?_, ?_, ?_⟩ <;> simp [h1, h2]
      omega

/-- Claim C8, amended. Each top-category rule, given the head of its
descending aggregate: the focus statement is produced iff the top-ranked
category is not the sentinel **and its magnitude is positive** (the
`iloc[0] > 0` conjunct at lines 403/415/427); the data-missing statement
iff the top category is the sentinel; and (platform only) a non-empty
aggregate whose top is a genuine category with a non-positive engagement
sum falls through to the no-data statement.  For media type and location
the magnitude is a row count, always positive, so there the claim's
original reading holds and the no-data statement needs an empty
aggregate. -/
theorem c8_top_category_rules (rows : List CleanRecord) :
    ((platform_engagements rows = [] → platform_rec rows = CatRec.noData) ∧
     (∀ (k : PyStr) (v : Int) (t : List (PyStr × Int)),
        platform_engagements rows = (k, v) :: t →
        (platform_rec rows = CatRec.focus k ↔ k ≠ unknownL ∧ 0 < v) ∧
        (platform_rec rows = CatRec.dataMissing ↔ k = unknownL) ∧
        (platform_rec rows = CatRec.noData ↔ k ≠ unknownL ∧ v ≤ 0))) ∧
    ((value_counts (rows.map (·.mediatype)) = [] → media_type_rec rows = CatRec.noData) ∧
     (∀ (k : PyStr) (v : Int) (t : List (PyStr × Int)),
        value_counts (rows.map (·.mediatype)) = (k, v) :: t →
        0 < v ∧
        (media_type_rec rows = CatRec.focus k ↔ k ≠ unknownMediaL) ∧
        (media_type_rec rows = CatRec.dataMissing ↔ k = unknownMediaL) ∧
        media_type_rec rows ≠ CatRec.noData)) ∧
    ((value_counts (rows.map (·.location)) = [] → location_rec rows = CatRec.noData) ∧
     (∀ (k : PyStr) (v : Int) (t : List (PyStr × Int)),
        value_counts (rows.map (·.location)) = (k, v) :: t →
        0 < v ∧
        (location_rec rows = CatRec.focus k ↔ k ≠ unknownL) ∧
        (location_rec rows = CatRec.dataMissing ↔ k = unknownL) ∧
        location_rec rows ≠ CatRec.noData)) := by
  refine ⟨⟨?_, ?_⟩, ⟨?_, ?_⟩, ⟨?_, ?_⟩⟩
  · intro h
    simp only [platform_rec, h]
    rfl
  · intro k v t h
    simp only [platform_rec, h]
    exact top_category_rec_head unknownL k v t
  · intro h
    simp only [media_type_rec, h]
    rfl
  · intro k v t h
    have hpos : 0 < v := by
      have : (k, v) ∈ value_counts (rows.map (·.mediatype)) := by
        rw [h]
        exact List.mem_cons_self _ _
      exact value_counts_pos _ _ this
    simp only [media_type_rec, h]
    obtain ⟨hfoc, hmiss, hnod⟩ := top_category_rec_head unknownMediaL k v t
    refine ⟨hpos, ?_, hmiss, ?_⟩
    · rw [hfoc]
      constructor
      · exact fun h2 => h2.1
      · exact fun h2 => ⟨h2, hpos⟩
    · rw [Ne, hnod]
      rintro ⟨-, hle⟩
      omega
  · intro h
    simp only [location_rec, h]
    rfl
  · intro k v t h
    have hpos : 0 < v := by
      have : (k, v) ∈ value_counts (rows.map (·.location)) := by
        rw [h]
        exact List.mem_cons_self _ _
      exact value_counts_pos _ _ this
    simp only [location_rec, h]
    obtain ⟨hfoc, hmiss, hnod⟩ := top_category_rec_head unknownL k v t
    refine ⟨hpos, ?_, hmiss, ?_⟩
    · rw [hfoc]
      constructor
      · exact fun h2 => h2.1
      · exact fun h2 => ⟨h2, hpos⟩
    · rw [Ne, hnod]
      rintro ⟨-, hle⟩
      omega



/-- Claim C8, counterexample. A non-empty platform aggregate whose top
category is genuine (`"X" ≠ "Unknown"`) but has engagement sum 0: the
claim requires the focus statement, yet the `iloc[0] > 0` conjunct fails
and neither `elif` matches, so the rule emits the no-data statement. -/
theorem c8_platform_zero_sum_counterexample :
    platform_engagements [zeroPlatformRow] = [("X".toList, 0)] ∧
    ("X".toList : PyStr) ≠ unknownL ∧
    platform_rec [zeroPlatformRow] = CatRec.noData ∧
    platform_rec [zeroPlatformRow] ≠ CatRec.focus "X".toList :=
  ⟨by decide, by decide, by decide, by decide⟩

/-- Witness for C8 (amended) at the concrete one-row table. -/
theorem c8_top_category_witness :
    platform_engagements [zeroPlatformRow] = [("X".toList, 0)] ∧
    ((platform_rec [zeroPlatformRow] = CatRec.focus "X".toList ↔
        "X".toList ≠ unknownL ∧ 0 < (0 : Int)) ∧
     (platform_rec [zeroPlatformRow] = CatRec.dataMissing ↔ "X".toList = unknownL) ∧
     (platform_rec [zeroPlatformRow] = CatRec.noData ↔
        "X".toList ≠ unknownL ∧ (0 : Int) ≤ 0)) :=
  ⟨by decide,
   (c8_top_category_rules [zeroPlatformRow]).1.2 "X".toList 0 [] (by decide)⟩





/-- Claim C9. With 7 distinct locations the chart aggregate is correctly
truncated to the 5 highest counts in descending order, but the insight
that names the bottom entry reads `sorted_locations.index[-1]` over the
**untruncated** aggregate (the `.head(5)` of line 323 is missing from
`get_location_insights`): it names the 7th-ranked location `"g"` — not a
member of the exposed top-5 aggregate, whose bottom entry is `"e"` —
while its own template text says "(among the top 5)". -/
theorem c9_location_bottom_insight_not_top5 :
    location_chart_data sevenLocRows
      = [(['a'], 7), (['b'], 6), (['c'], 5), (['d'], 4), (['e'], 3)] ∧
    location_insight_bottom sevenLocRows = some (['g'], 1) ∧
    (['g'], (1 : Int)) ∉ location_chart_data sevenLocRows ∧
    (['g'] : PyStr) ≠ ['e'] :=
  ⟨by decide, by decide, by decide, by decide⟩
